import Mathlib

/-!
# Verification of the LoraGPSTracker core against its specification

Shallow embedding of the core logic of the LoraGPSTracker repository:

* `src/beacon/gps.py`   — NMEA sentence validation and parsing, fix evaluator
* `src/shared/utils.py` — haversine distance
* `src/shared/packet_parser.py` — minimal 12-byte binary packet codec
* `src/tracker/navigation.py`   — bearing-trend regression with unwrapping
* `src/beacon/lora.py`  — message codec (AES-CBC framing) and the TX retry loop
* `src/tracker/lora.py` — receiver's placeholder decryption, callback registry

Python `float` arithmetic is modelled with exact rationals `ℚ` (and reals `ℝ`
for the trigonometric geo math); Python `bytes` with `List Nat`; Python `str`
with `List Char`.  The AES block cipher comes from the external PyCryptodome
library, so it is kept as an explicit parameter (a keyed block permutation);
every mode-of-operation step (CBC chaining, ECB, PKCS7 padding, IV framing)
is embedded concretely from the calling code.
-/

/-! ## Python string helpers -/

/-- Python's `str.split(sep)` for a one-character separator:
splitting `""` yields `[""]`, and `n` separators yield `n+1` parts. -/
def pySplit (sep : Char) : List Char → List (List Char)
  | [] => [[]]
  | c :: cs =>
    if c = sep then
      [] :: pySplit sep cs
    else
      match pySplit sep cs with
      | [] => [[c]]
      | h :: t => (c :: h) :: t

theorem pySplit_ne_nil (sep : Char) (l : List Char) : pySplit sep l ≠ [] := by
  induction l with
  | nil => simp [pySplit]
  | cons c cs ih =>
    by_cases h : c = sep
    · simp [pySplit, h]
    · simp only [pySplit, if_neg h]
      cases pySplit sep cs with
      | nil => simp
      | cons h t => simp

/-- Splitting a list that does not contain the separator yields the list itself. -/
theorem pySplit_of_not_mem {sep : Char} {l : List Char} (h : sep ∉ l) :
    pySplit sep l = [l] := by
  induction l with
  | nil => rfl
  | cons c cs ih =>
    have hc : c ≠ sep := fun hc => h (hc ▸ List.mem_cons_self c cs)
    have hcs : sep ∉ cs := fun hm => h (List.mem_cons_of_mem c hm)
    simp only [pySplit, if_neg hc, ih hcs]

/-- Splitting at the first separator occurrence peels off the prefix. -/
theorem pySplit_append {sep : Char} {l₁ : List Char} (l₂ : List Char)
    (h : sep ∉ l₁) : pySplit sep (l₁ ++ sep :: l₂) = l₁ :: pySplit sep l₂ := by
  induction l₁ with
  | nil => simp [pySplit]
  | cons c cs ih =>
    have hc : c ≠ sep := fun hc => h (hc ▸ List.mem_cons_self c cs)
    have hcs : sep ∉ cs := fun hm => h (List.mem_cons_of_mem c hm)
    simp only [List.cons_append, pySplit, if_neg hc]
    rw [show cs.append (sep :: l₂) = cs ++ sep :: l₂ from rfl, ih hcs]

/-- Python's `str.lstrip(ch)` for a one-character argument. -/
def pyLstrip (ch : Char) (l : List Char) : List Char :=
  l.dropWhile (fun c => c = ch)

/-! ## NMEA sentence validity (`GPSModule._is_valid_nmea`, src/beacon/gps.py) -/

/-- The XOR checksum loop of `_is_valid_nmea`:
`calculated_checksum = 0; for char in data: calculated_checksum ^= ord(char)`. -/
def nmeaChecksum (data : List Char) : Nat :=
  data.foldl (fun acc c => acc ^^^ c.toNat) 0

/-- Value of one hexadecimal digit, as accepted by Python's `int(s, 16)`. -/
def hexDigitVal (c : Char) : Option Nat :=
  if '0' ≤ c ∧ c ≤ '9' then some (c.toNat - 48)
  else if 'A' ≤ c ∧ c ≤ 'F' then some (c.toNat - 55)
  else if 'a' ≤ c ∧ c ≤ 'f' then some (c.toNat - 87)
  else none

def parseHexAux : Nat → List Char → Option Nat
  | acc, [] => some acc
  | acc, c :: cs =>
    match hexDigitVal c with
    | some v => parseHexAux (16 * acc + v) cs
    | none => none

/-- Python's `int(s, 16)` on a plain string of hexadecimal digits, as an
`Option` (`none` models the raised `ValueError`).  Python additionally accepts
surrounding whitespace, a sign, a `0x` prefix and `_` digit separators; the
checksum fields reached by the code under verification are plain digit
strings, on which the two functions agree. -/
def parseHexNat : List Char → Option Nat
  | [] => none
  | c :: cs => parseHexAux 0 (c :: cs)

/-- `GPSModule._is_valid_nmea` (src/beacon/gps.py lines 365-400): a sentence
is valid when it starts with `'$'`, has length at least 5, and — when it
contains `'*'` — splitting on `'*'` yields exactly two parts (Python's tuple
unpacking of `sentence.split('*')` raises otherwise, caught as invalid) whose
second part parses as a hexadecimal number equal to the XOR checksum of the
first part without its leading `'$'`. -/
def is_valid_nmea (sentence : List Char) : Bool :=
  if sentence.head? ≠ some '$' then false
  else if sentence.length < 5 then false
  else if '*' ∈ sentence then
    match pySplit '*' sentence with
    | [d, checksum] =>
      match parseHexNat checksum with
      | some v => v == nmeaChecksum (d.drop 1)
      | none => false
    | _ => false
  else true

/-! ### Checksum arithmetic lemmas -/

theorem foldl_xor_shift (l : List Char) (acc : Nat) :
    l.foldl (fun a c => a ^^^ c.toNat) acc = acc ^^^ nmeaChecksum l := by
  induction l generalizing acc with
  | nil => simp [nmeaChecksum]
  | cons c cs ih =>
    simp only [nmeaChecksum, List.foldl_cons] at *
    rw [ih (acc ^^^ c.toNat), ih (0 ^^^ c.toNat)]
    simp [Nat.xor_assoc]

theorem nmeaChecksum_cons (c : Char) (l : List Char) :
    nmeaChecksum (c :: l) = c.toNat ^^^ nmeaChecksum l := by
  simp only [nmeaChecksum, List.foldl_cons]
  rw [foldl_xor_shift]
  simp [nmeaChecksum]

theorem nmeaChecksum_append (l₁ l₂ : List Char) :
    nmeaChecksum (l₁ ++ l₂) = nmeaChecksum l₁ ^^^ nmeaChecksum l₂ := by
  induction l₁ with
  | nil => simp [nmeaChecksum]
  | cons c cs ih =>
    simp only [List.cons_append, nmeaChecksum_cons, ih, Nat.xor_assoc]

/-- Replacing the element at position `i` XORs the old and new characters into
the checksum. -/
theorem nmeaChecksum_set (l : List Char) (i : Nat) (hi : i < l.length) (c : Char) :
    nmeaChecksum (l.set i c) = nmeaChecksum l ^^^ (l.get ⟨i, hi⟩).toNat ^^^ c.toNat := by
  induction l generalizing i with
  | nil => simp at hi
  | cons a as ih =>
    cases i with
    | zero =>
      simp only [List.set, List.get, nmeaChecksum_cons]
      rw [Nat.xor_comm a.toNat (nmeaChecksum as), Nat.xor_cancel_right, Nat.xor_comm]
    | succ n =>
      have hn : n < as.length := by simpa using hi
      simp only [List.set, List.get, nmeaChecksum_cons, ih n hn]
      rw [← Nat.xor_assoc, ← Nat.xor_assoc]

theorem char_toNat_injective {a b : Char} (h : a.toNat = b.toNat) : a = b := by
  exact Char.eq_of_val_eq (UInt32.eq_of_toBitVec_eq (BitVec.eq_of_toNat_eq h))

/-- A character accepted by `hexDigitVal` is never `'*'`. -/
theorem hexDigit_ne_star {c : Char} {v : Nat} (h : hexDigitVal c = some v) : c ≠ '*' := by
  intro hc
  subst hc
  simp [hexDigitVal] at h

theorem parseHexNat_pair {h1 h2 : Char} {v1 v2 : Nat}
    (hv1 : hexDigitVal h1 = some v1) (hv2 : hexDigitVal h2 = some v2) :
    parseHexNat [h1, h2] = some (16 * v1 + v2) := by
  simp [parseHexNat, parseHexAux, hv1, hv2]

/-- **C3.** A well-formed NMEA sentence — `'$'`, a `'*'`-free body, `'*'`, and
a two-hex-digit checksum equal to the XOR of the body, with total length at
least 5 — is accepted by `is_valid_nmea`; a `'*'`-free sentence starting with
`'$'` of length at least 5 is accepted as well; and replacing any single body
character by a different character, keeping the checksum, is rejected. -/
theorem nmea_valid_and_single_flip_invalid
    (body : List Char) (h1 h2 : Char) (v1 v2 : Nat)
    (hstar : '*' ∉ body)
    (hv1 : hexDigitVal h1 = some v1) (hv2 : hexDigitVal h2 = some v2)
    (hsum : 16 * v1 + v2 = nmeaChecksum body)
    (hlen : 5 ≤ ('$' :: body ++ '*' :: [h1, h2]).length) :
    is_valid_nmea ('$' :: body ++ '*' :: [h1, h2]) = true ∧
    (∀ s : List Char, s.head? = some '$' → 5 ≤ s.length → '*' ∉ s →
      is_valid_nmea s = true) ∧
    (∀ (i : Nat) (hi : i < body.length) (c : Char), c ≠ body.get ⟨i, hi⟩ →
      is_valid_nmea ('$' :: body.set i c ++ '*' :: [h1, h2]) = false) := by
  have hd1 : ('*' : Char) ∉ '$' :: body := by
    intro hm
    rcases List.mem_cons.mp hm with h | h
    · exact absurd h (by decide)
    · exact hstar h
  have htl : ('*' : Char) ∉ [h1, h2] := by
    intro hm
    rcases List.mem_cons.mp hm with h | h
    · exact hexDigit_ne_star hv1 h.symm
    · exact hexDigit_ne_star hv2 (List.mem_singleton.mp h).symm
  have hhex := parseHexNat_pair hv1 hv2
  refine ⟨?_, ?_, ?_⟩
  · -- the well-formed checksummed sentence is valid
    have hsplit : pySplit '*' ('$' :: body ++ '*' :: [h1, h2]) =
        ['$' :: body, [h1, h2]] := by
      have h := @pySplit_append '*' ('$' :: body) [h1, h2] hd1
      rw [pySplit_of_not_mem htl] at h
      simpa using h
    rw [is_valid_nmea]
    rw [if_neg (by simp)]
    rw [if_neg (Nat.not_lt.mpr hlen)]
    rw [if_pos (by simp)]
    rw [hsplit]
    simp [hhex, hsum]
  · -- sentences without a star: only the prefix and length checks apply
    intro s hhead hlen5 hnm
    rw [is_valid_nmea]
    rw [if_neg (by simp [hhead])]
    rw [if_neg (Nat.not_lt.mpr hlen5)]
    rw [if_neg hnm]
  · -- flipping one body character invalidates the sentence
    intro i hi c hc
    have hlenset : ('$' :: body.set i c ++ '*' :: [h1, h2]).length =
        ('$' :: body ++ '*' :: [h1, h2]).length := by
      simp [List.length_set]
    by_cases hcs : c = '*'
    · -- the flipped character is itself a star: three-way split, unpacking fails
      subst hcs
      have hset : body.set i '*' = body.take i ++ '*' :: body.drop (i + 1) :=
        List.set_eq_take_cons_drop _ hi
      have hnt : ('*' : Char) ∉ '$' :: body.take i := by
        intro hm
        rcases List.mem_cons.mp hm with h | h
        · exact absurd h (by decide)
        · exact hstar (List.mem_of_mem_take h)
      have hnd : ('*' : Char) ∉ body.drop (i + 1) :=
        fun h => hstar (List.mem_of_mem_drop h)
      have hsplit : pySplit '*' ('$' :: body.set i '*' ++ '*' :: [h1, h2]) =
          ('$' :: body.take i) :: body.drop (i + 1) :: [[h1, h2]] := by
      -- rewrite as two nested prefix splits
        have h2' := @pySplit_append '*' (body.drop (i + 1)) [h1, h2] hnd
        rw [pySplit_of_not_mem htl] at h2'
        have h1' := @pySplit_append '*' ('$' :: body.take i)
          (body.drop (i + 1) ++ '*' :: [h1, h2]) hnt
        rw [h2'] at h1'
        rw [hset]
        simpa using h1'
      rw [is_valid_nmea]
      rw [if_neg (by simp)]
      rw [if_neg (by rw [hlenset]; exact Nat.not_lt.mpr hlen)]
      rw [if_pos (by simp)]
      rw [hsplit]
    · -- the flipped character changes the XOR checksum
      have hns : ('*' : Char) ∉ body.set i c := by
        intro hm
        rcases List.mem_or_eq_of_mem_set hm with h | h
        · exact hstar h
        · exact hcs h.symm
      have hd1' : ('*' : Char) ∉ '$' :: body.set i c := by
        intro hm
        rcases List.mem_cons.mp hm with h | h
        · exact absurd h (by decide)
        · exact hns h
      have hsplit : pySplit '*' ('$' :: body.set i c ++ '*' :: [h1, h2]) =
          ['$' :: body.set i c, [h1, h2]] := by
        have h := @pySplit_append '*' ('$' :: body.set i c) [h1, h2] hd1'
        rw [pySplit_of_not_mem htl] at h
        simpa using h
      have hne : 16 * v1 + v2 ≠ nmeaChecksum (body.set i c) := by
        rw [hsum, nmeaChecksum_set body i hi c]
        intro h
        have h' : (nmeaChecksum body ^^^ (body.get ⟨i, hi⟩).toNat) ^^^
            (body.get ⟨i, hi⟩).toNat =
            (nmeaChecksum body ^^^ (body.get ⟨i, hi⟩).toNat) ^^^ c.toNat := by
          rw [Nat.xor_cancel_right]
          exact h
        have := Nat.xor_right_inj.mp h'
        exact hc (char_toNat_injective this.symm)
      rw [is_valid_nmea]
      rw [if_neg (by simp)]
      rw [if_neg (by rw [hlenset]; exact Nat.not_lt.mpr hlen)]
      rw [if_pos (by simp)]
      rw [hsplit]
      simp only [List.drop_succ_cons, List.drop_zero, hhex]
      simpa using hne

/-- Concrete witness for the NMEA validity theorem: the body `"GPAB"` has XOR
checksum `0x14`, and flipping its third character to `'C'` breaks it. -/
theorem nmea_valid_and_single_flip_invalid_witness :
    is_valid_nmea ('$' :: "GPAB".toList ++ '*' :: ['1', '4']) = true ∧
    is_valid_nmea "$GPAB".toList = true ∧
    is_valid_nmea ('$' :: "GPAB".toList.set 2 'C' ++ '*' :: ['1', '4']) = false := by
  have h := nmea_valid_and_single_flip_invalid "GPAB".toList '1' '4' 1 4
    (by decide) (by decide) (by decide) (by decide) (by decide)
  exact ⟨h.1, h.2.1 "$GPAB".toList (by decide) (by decide) (by decide),
    h.2.2 2 (by decide) 'C' (by decide)⟩

/-! ## Numeric field parsing (Python `float`/`int` on NMEA fields) -/

/-- Digit-string accumulator, `foldl`-style like Python's parser. -/
def digitsVal (l : List Char) : Nat :=
  l.foldl (fun acc c => 10 * acc + (c.toNat - 48)) 0

/-- Python's `float(s)` restricted to plain decimal notation
(`[+-]?digits[.digits]?`), which is the only shape of the numeric NMEA fields
the parser under verification receives; exponents, `inf`/`nan` and surrounding
whitespace are also accepted by Python but never produced by a GPS field.
`none` models the raised `ValueError`. -/
def parseDec (s : List Char) : Option ℚ :=
  let core : List Char → Option ℚ := fun t =>
    match pySplit '.' t with
    | [ip] => if ip ≠ [] ∧ ip.all Char.isDigit then some (digitsVal ip : ℚ) else none
    | [ip, fp] =>
      if (ip ≠ [] ∨ fp ≠ []) ∧ ip.all Char.isDigit ∧ fp.all Char.isDigit then
        some ((digitsVal ip : ℚ) + (digitsVal fp : ℚ) / (10 : ℚ) ^ fp.length)
      else none
    | _ => none
  match s with
  | '-' :: r => (core r).map (fun q => -q)
  | '+' :: r => core r
  | r => core r

/-- Python's `int(s)` restricted to `[+-]?digits` (whitespace and `_`
separators are never produced by an NMEA field).  `none` models `ValueError`. -/
def parsePyInt (s : List Char) : Option Int :=
  let core : List Char → Option Int := fun t =>
    if t ≠ [] ∧ t.all Char.isDigit then some (digitsVal t : Int) else none
  match s with
  | '-' :: r => (core r).map (fun n => -n)
  | '+' :: r => core r
  | r => core r

/-! ## GPS fix state (`GPSModule.gps_data`, src/beacon/gps.py) -/

/-- The `gps_data` dictionary of `GPSModule.__init__`, with its initial
values as defaults.  `last_update` is kept for completeness although only the
reader thread touches it. -/
structure GpsData where
  latitude : Option ℚ := none
  longitude : Option ℚ := none
  altitude : Option ℚ := none
  speed : Option ℚ := none
  course : Option ℚ := none
  satellites : Int := 0
  fix_quality : Int := 0
  hdop : ℚ := 999 / 10
  pdop : ℚ := 999 / 10
  time : Option (List Char) := none
  date : Option (List Char) := none
  fix_type : Int := 1
  last_update : ℚ := 0
  valid : Bool := false

/-- Configured defaults (src/beacon/config.py lines 48-50). -/
def GPS_MIN_SATELLITES : Int := 3

def GPS_MIN_HDOP : ℚ := 5

def GPS_REQUIRE_3D_FIX : Bool := false

/-- `GPSModule._parse_gpgga` (src/beacon/gps.py lines 432-500).  Each field is
updated only when present and parseable; the altitude additionally requires
the units field to be exactly `"M"`. -/
def parse_gpgga (parts : List (List Char)) (g : GpsData) : GpsData :=
  if parts.length < 15 then g
  else
    let p := fun i => parts.getD i []
    let g1 := if p 1 ≠ [] then { g with time := some (p 1) } else g
    let g2 :=
      if p 2 ≠ [] ∧ p 3 ≠ [] then
        match parseDec ((p 2).take 2), parseDec ((p 2).drop 2) with
        | some latDeg, some latMin =>
          let lat := latDeg + latMin / 60
          { g1 with latitude := some (if p 3 = ['S'] then -lat else lat) }
        | _, _ => g1
      else g1
    let g3 :=
      if p 4 ≠ [] ∧ p 5 ≠ [] then
        match parseDec ((p 4).take 3), parseDec ((p 4).drop 3) with
        | some lonDeg, some lonMin =>
          let lon := lonDeg + lonMin / 60
          { g2 with longitude := some (if p 5 = ['W'] then -lon else lon) }
        | _, _ => g2
      else g2
    let g4 :=
      if p 6 ≠ [] then
        match parsePyInt (p 6) with
        | some q => { g3 with fix_quality := q }
        | none => g3
      else g3
    let g5 :=
      if p 7 ≠ [] then
        match parsePyInt (p 7) with
        | some n => { g4 with satellites := n }
        | none => g4
      else g4
    let g6 :=
      if p 8 ≠ [] then
        match parseDec (p 8) with
        | some h => { g5 with hdop := h }
        | none => g5
      else g5
    if p 9 ≠ [] ∧ p 10 = ['M'] then
      match parseDec (p 9) with
      | some a => { g6 with altitude := some a }
      | none => g6
    else g6

/-- `GPSModule._parse_gprmc` (src/beacon/gps.py lines 502-566): time and date
are always taken; position, speed (knots × 1.852 → km/h) and course only when
the status field is `'A'`. -/
def parse_gprmc (parts : List (List Char)) (g : GpsData) : GpsData :=
  if parts.length < 12 then g
  else
    let p := fun i => parts.getD i []
    let g1 := if p 1 ≠ [] then { g with time := some (p 1) } else g
    let active := p 2 = ['A']
    let g2 := if p 9 ≠ [] then { g1 with date := some (p 9) } else g1
    if active then
      let g3 :=
        if p 3 ≠ [] ∧ p 4 ≠ [] then
          match parseDec ((p 3).take 2), parseDec ((p 3).drop 2) with
          | some latDeg, some latMin =>
            let lat := latDeg + latMin / 60
            { g2 with latitude := some (if p 4 = ['S'] then -lat else lat) }
          | _, _ => g2
        else g2
      let g4 :=
        if p 5 ≠ [] ∧ p 6 ≠ [] then
          match parseDec ((p 5).take 3), parseDec ((p 5).drop 3) with
          | some lonDeg, some lonMin =>
            let lon := lonDeg + lonMin / 60
            { g3 with longitude := some (if p 6 = ['W'] then -lon else lon) }
          | _, _ => g3
        else g3
      let g5 :=
        if p 7 ≠ [] then
          match parseDec (p 7) with
          | some s => { g4 with speed := some (s * (1852 / 1000)) }
          | none => g4
        else g4
      if p 8 ≠ [] then
        match parseDec (p 8) with
        | some c => { g5 with course := some c }
        | none => g5
      else g5
    else g2

/-- `GPSModule._parse_gpgsv` (src/beacon/gps.py lines 568-589): the total
satellite count is a fallback, taken only when GGA has not reported one. -/
def parse_gpgsv (parts : List (List Char)) (g : GpsData) : GpsData :=
  if parts.length < 4 then g
  else
    match parsePyInt (parts.getD 3 []) with
    | some n => if g.satellites = 0 then { g with satellites := n } else g
    | none => g

/-- `GPSModule._parse_gpgsa` (src/beacon/gps.py lines 591-624). -/
def parse_gpgsa (parts : List (List Char)) (g : GpsData) : GpsData :=
  if parts.length < 18 then g
  else
    let p := fun i => parts.getD i []
    let g1 :=
      if p 2 ≠ [] then
        match parsePyInt (p 2) with
        | some t => { g with fix_type := t }
        | none => g
      else g
    let g2 :=
      if p 15 ≠ [] then
        match parseDec (p 15) with
        | some d => { g1 with pdop := d }
        | none => g1
      else g1
    if p 16 ≠ [] then
      match parseDec (p 16) with
      | some d => { g2 with hdop := d }
      | none => g2
    else g2

/-- `GPSModule._parse_nmea` (src/beacon/gps.py lines 402-430): strip the
checksum suffix and every leading `'$'`, split on commas, and dispatch on the
sentence type. -/
def parse_nmea (line : List Char) (g : GpsData) : GpsData :=
  let s := if '*' ∈ line then (pySplit '*' line).getD 0 [] else line
  let s := pyLstrip '$' s
  let parts := pySplit ',' s
  let t := parts.getD 0 []
  if t = "GPGGA".toList then parse_gpgga parts g
  else if t = "GPRMC".toList then parse_gprmc parts g
  else if t = "GPGSV".toList then parse_gpgsv parts g
  else if t = "GPGSA".toList then parse_gpgsa parts g
  else g

/-! ## Fix validity evaluator (`GPSModule.has_fix` / `_update_gps_status`) -/

/-- `GPSModule.has_fix` (src/beacon/gps.py lines 276-299). -/
def has_fix (g : GpsData) (min_satellites : Int) (min_hdop : ℚ)
    (require_3d_fix : Bool) : Bool :=
  if g.latitude = none ∨ g.longitude = none then false
  else if g.satellites < min_satellites then false
  else if min_hdop < g.hdop then false
  else if require_3d_fix ∧ g.fix_type < 3 then false
  else true

/-- The diagnostic reasons produced by `GPSModule._update_gps_status`
(src/beacon/gps.py lines 626-652). -/
inductive FixInvalidReason where
  | unknown
  | noPositionData
  | tooFewSatellites
  | hdopTooHigh
  | no3dFix
deriving DecidableEq

/-- The `reason` chain of `_update_gps_status`: first failing check, in the
source's `if`/`elif` order. -/
def fix_invalid_reason (g : GpsData) (min_satellites : Int) (min_hdop : ℚ)
    (require_3d_fix : Bool) : FixInvalidReason :=
  if g.latitude = none then .noPositionData
  else if g.satellites < min_satellites then .tooFewSatellites
  else if min_hdop < g.hdop then .hdopTooHigh
  else if require_3d_fix ∧ g.fix_type < 3 then .no3dFix
  else .unknown

/-- The GGA sentence of the specification's example. -/
def ggaExample : List Char :=
  "$GPGGA,123519,4807.038,N,01131.000,E,1,08,0.9,545.4,M,46.9,M,,*47".toList

/-- **C4.** Parsing the example GGA sentence from any prior fix state leaves
latitude `48.1173` (= 48 + 7.038/60, exact in `ℚ`), longitude `691/60`
(= 11 + 31.000/60 ≈ 11.51666, within `10⁻⁵`), fix quality 1, 8 satellites,
HDOP 0.9, and altitude 545.4 (taken because the units field is exactly
`"M"`). -/
theorem parse_gpgga_example (g : GpsData) :
    (parse_nmea ggaExample g).latitude = some (48 + (7038 / 1000) / 60) ∧
    (parse_nmea ggaExample g).latitude = some (481173 / 10000) ∧
    (parse_nmea ggaExample g).longitude = some (11 + (31000 / 1000) / 60) ∧
    (parse_nmea ggaExample g).longitude = some (691 / 60) ∧
    |(691 / 60 : ℚ) - 1151666 / 100000| < 1 / 100000 ∧
    (parse_nmea ggaExample g).fix_quality = 1 ∧
    (parse_nmea ggaExample g).satellites = 8 ∧
    (parse_nmea ggaExample g).hdop = 9 / 10 ∧
    (parse_nmea ggaExample g).altitude = some (5454 / 10) := by
  refine ⟨?_, ?_, ?_, ?_, ?_, ?_, ?_, ?_, ?_⟩
  · with_unfolding_all rfl
  · with_unfolding_all rfl
  · with_unfolding_all rfl
  · with_unfolding_all rfl
  · rw [abs_lt]
    constructor <;> norm_num
  · with_unfolding_all rfl
  · with_unfolding_all rfl
  · with_unfolding_all rfl
  · with_unfolding_all rfl

/-- **C5.** With latitude and longitude present and 2 satellites against the
configured minimum of 3 (src/beacon/config.py), the fix is invalid and the
first failing reason is "too few satellites", whatever the HDOP threshold,
the HDOP value and the require-3D flag are. -/
theorem fix_invalid_too_few_satellites (g : GpsData) (min_hdop : ℚ)
    (require_3d_fix : Bool)
    (hlat : g.latitude ≠ none) (hlon : g.longitude ≠ none)
    (hsat : g.satellites = 2) :
    has_fix g GPS_MIN_SATELLITES min_hdop require_3d_fix = false ∧
    fix_invalid_reason g GPS_MIN_SATELLITES min_hdop require_3d_fix =
      .tooFewSatellites := by
  have hlt : g.satellites < GPS_MIN_SATELLITES := by
    rw [hsat]
    decide
  constructor
  · rw [has_fix, if_neg (by simp [hlat, hlon]), if_pos hlt]
  · rw [fix_invalid_reason, if_neg hlat, if_pos hlt]

/-- Witness for the fix evaluator: a state with a position, 2 satellites, an
HDOP that would also fail (99.9 against a 0 threshold) and 3D required is
still rejected with the satellite reason, by its priority. -/
theorem fix_invalid_too_few_satellites_witness :
    has_fix { latitude := some 0, longitude := some 0, satellites := 2 }
      GPS_MIN_SATELLITES 0 true = false ∧
    fix_invalid_reason { latitude := some 0, longitude := some 0, satellites := 2 }
      GPS_MIN_SATELLITES 0 true = .tooFewSatellites :=
  fix_invalid_too_few_satellites
    { latitude := some 0, longitude := some 0, satellites := 2 } 0 true
    (by simp) (by simp) rfl

/-! ## Geo math (`calculate_distance`, src/shared/utils.py lines 52-81)

Python `float` trigonometry is modelled over the reals. -/

/-- Python's `math.radians`. -/
noncomputable def pyRadians (d : ℝ) : ℝ := d * (Real.pi / 180)

/-- The C-library `atan2` used by Python's `math.atan2`. -/
noncomputable def pyAtan2 (y x : ℝ) : ℝ :=
  if 0 < x then Real.arctan (y / x)
  else if x < 0 then
    (if 0 ≤ y then Real.arctan (y / x) + Real.pi else Real.arctan (y / x) - Real.pi)
  else if 0 < y then Real.pi / 2
  else if y < 0 then -(Real.pi / 2)
  else 0

/-- `calculate_distance` (src/shared/utils.py): haversine formula with Earth
radius 6,371,000 m. -/
noncomputable def calculate_distance (lat1 lon1 lat2 lon2 : ℝ) : ℝ :=
  6371000 *
    (2 * pyAtan2
      (Real.sqrt (Real.sin ((pyRadians lat2 - pyRadians lat1) / 2) ^ 2 +
        Real.cos (pyRadians lat1) * Real.cos (pyRadians lat2) *
          Real.sin ((pyRadians lon2 - pyRadians lon1) / 2) ^ 2))
      (Real.sqrt (1 - (Real.sin ((pyRadians lat2 - pyRadians lat1) / 2) ^ 2 +
        Real.cos (pyRadians lat1) * Real.cos (pyRadians lat2) *
          Real.sin ((pyRadians lon2 - pyRadians lon1) / 2) ^ 2))))

/-- **C8.** The haversine distance of a point to itself is 0, and the
distance is symmetric in its two points, for all coordinates. -/
theorem calculate_distance_zero_and_symm :
    (∀ lat lon : ℝ, calculate_distance lat lon lat lon = 0) ∧
    (∀ lat1 lon1 lat2 lon2 : ℝ,
      calculate_distance lat1 lon1 lat2 lon2 = calculate_distance lat2 lon2 lat1 lon1) := by
  constructor
  · intro lat lon
    unfold calculate_distance
    simp [pyAtan2, Real.arctan_zero]
  · intro lat1 lon1 lat2 lon2
    unfold calculate_distance
    have key : ∀ x y : ℝ, Real.sin ((x - y) / 2) ^ 2 = Real.sin ((y - x) / 2) ^ 2 := by
      intro x y
      rw [show x - y = -(y - x) by ring, neg_div, Real.sin_neg, neg_sq]
    rw [key (pyRadians lat2) (pyRadians lat1), key (pyRadians lon2) (pyRadians lon1),
        mul_comm (Real.cos (pyRadians lat1)) (Real.cos (pyRadians lat2))]

/-! ## Bearing-trend regression (`NavigationCalculator._calculate_bearing_trend`,
src/tracker/navigation.py lines 143-183) -/

/-- Python's `%` on floats: the result carries the sign of the divisor,
`a - b * ⌊a / b⌋`. -/
def pymodQ (a b : ℚ) : ℚ := a - b * ⌊a / b⌋

/-- The unwrapping loop body: each sample is shifted by the signed
shortest-path delta `((b - prev + 180) % 360) - 180` from its predecessor. -/
def unwrapBearingsGo (prev : ℚ) : List (ℚ × ℚ) → List (ℚ × ℚ)
  | [] => []
  | (t, b) :: tl =>
    (t, prev + (pymodQ (b - prev + 180) 360 - 180)) ::
      unwrapBearingsGo (prev + (pymodQ (b - prev + 180) 360 - 180)) tl

/-- Bearing unwrapping of `_calculate_bearing_trend`: the first sample is kept
as is, later samples are chained through `unwrapBearingsGo`. -/
def unwrapBearings : List (ℚ × ℚ) → List (ℚ × ℚ)
  | [] => []
  | (t0, b0) :: rest => (t0, b0) :: unwrapBearingsGo b0 rest

/-- The shared least-squares slope of `_calculate_distance_trend` /
`_calculate_bearing_trend`; `none` models the caught `ZeroDivisionError` on a
zero-variance time axis. -/
def linRegSlope (points : List (ℚ × ℚ)) : Option ℚ :=
  if (points.length : ℚ) * (points.map (fun p => p.1 * p.1)).sum -
      (points.map (fun p => p.1)).sum * (points.map (fun p => p.1)).sum = 0 then none
  else
    some (((points.length : ℚ) * (points.map (fun p => p.1 * p.2)).sum -
        (points.map (fun p => p.1)).sum * (points.map (fun p => p.2)).sum) /
      ((points.length : ℚ) * (points.map (fun p => p.1 * p.1)).sum -
        (points.map (fun p => p.1)).sum * (points.map (fun p => p.1)).sum))

/-- `_calculate_bearing_trend`: at least two samples, restrict to the last
five (`history[-5:]`), unwrap, then regress. -/
def calculate_bearing_trend (history : List (ℚ × ℚ)) : Option ℚ :=
  if history.length < 2 then none
  else
    linRegSlope (unwrapBearings
      (if 5 ≤ history.length then history.drop (history.length - 5) else history))

theorem pymodQ_neg178 : pymodQ (-178) 360 = 182 := by
  have h : ⌊(-178 : ℚ) / 360⌋ = -1 := by
    rw [Int.floor_eq_iff]
    constructor <;> norm_num
  rw [pymodQ, h]
  norm_num

/-- **C7.** On the bearing history `[359, 1, 3]` at equally spaced increasing
timestamps, the trend first unwraps 1 to 361 and 3 to 363 and then regresses
to the exact slope `2/d` (degrees per second for spacing `d`), which is
positive — never a large negative slope. -/
theorem bearing_trend_unwraps_and_positive (t0 d : ℚ) (hd : 0 < d) :
    unwrapBearings [(t0, 359), (t0 + d, 1), (t0 + 2 * d, 3)] =
      [(t0, 359), (t0 + d, 361), (t0 + 2 * d, 363)] ∧
    calculate_bearing_trend [(t0, 359), (t0 + d, 1), (t0 + 2 * d, 3)] = some (2 / d) ∧
    0 < 2 / d := by
  have hu : unwrapBearings [(t0, 359), (t0 + d, 1), (t0 + 2 * d, 3)] =
      [(t0, 359), (t0 + d, 361), (t0 + 2 * d, 363)] := by
    simp only [unwrapBearings, unwrapBearingsGo]
    rw [show (1 : ℚ) - 359 + 180 = -178 by norm_num, pymodQ_neg178]
    norm_num
    rw [pymodQ_neg178]
    norm_num
  refine ⟨hu, ?_, by positivity⟩
  rw [calculate_bearing_trend]
  rw [if_neg (by norm_num)]
  have hlen : ¬(5 : ℕ) ≤ ([(t0, 359), (t0 + d, 1), (t0 + 2 * d, 3)] : List (ℚ × ℚ)).length := by
    norm_num
  rw [if_neg hlen, hu, linRegSlope]
  simp only [List.map_cons, List.map_nil, List.sum_cons, List.sum_nil, List.length_cons,
    List.length_nil]
  have hden : ((0 + 1 + 1 + 1 : ℕ) : ℚ) * (t0 * t0 + ((t0 + d) * (t0 + d) +
      ((t0 + 2 * d) * (t0 + 2 * d) + 0))) - (t0 + (t0 + d + (t0 + 2 * d + 0))) *
      (t0 + (t0 + d + (t0 + 2 * d + 0))) = 6 * d ^ 2 := by
    push_cast
    ring
  rw [if_neg (by rw [hden]; positivity)]
  congr 1
  rw [div_eq_div_iff (by rw [hden]; positivity) hd.ne']
  push_cast
  ring

/-- Concrete witness: bearings `[359, 1, 3]` at timestamps `0, 1, 2` unwrap to
`[359, 361, 363]` and regress to slope `2`. -/
theorem bearing_trend_unwraps_and_positive_witness :
    unwrapBearings [((0 : ℚ), 359), (1, 1), (2, 3)] = [(0, 359), (1, 361), (2, 363)] ∧
    calculate_bearing_trend [((0 : ℚ), 359), (1, 1), (2, 3)] = some 2 ∧
    (0 : ℚ) < 2 := by
  have h := bearing_trend_unwraps_and_positive 0 1 (by norm_num)
  simpa using h

/-! ## Minimal binary packet (`PacketParser`, src/shared/packet_parser.py) -/

/-- Python's `int()` applied to an exact rational: truncation toward zero. -/
def pyTrunc (q : ℚ) : Int := Int.tdiv q.num (q.den : Int)

/-- The four little-endian bytes of `n % 2^32`. -/
def toLE4 (n : Nat) : List Nat :=
  [n % 256, n / 256 % 256, n / 256 ^ 2 % 256, n / 256 ^ 3 % 256]

/-- One `'<i'` field of `struct.pack`: four little-endian bytes of the
two's-complement representation; values outside the signed 32-bit range raise
`struct.error` (`none`). -/
def packInt32LE (v : Int) : Option (List Nat) :=
  if -(2 ^ 31) ≤ v ∧ v < 2 ^ 31 then some ((v % 2 ^ 32).toNat |> toLE4) else none

/-- Little-endian reassembly of one `'<i'` field of `struct.unpack`. -/
def fromLE4 (bs : List Nat) : Nat :=
  bs.getD 0 0 + 256 * bs.getD 1 0 + 256 ^ 2 * bs.getD 2 0 + 256 ^ 3 * bs.getD 3 0

/-- Signed reinterpretation of an unsigned 32-bit value. -/
def toInt32 (n : Nat) : Int := if n < 2 ^ 31 then (n : Int) else (n : Int) - 2 ^ 32

/-- `PacketParser.encode_minimal_packet` (src/shared/packet_parser.py lines
86-113): `struct.pack('<iii', int(lat*1e6), int(lon*1e6), timestamp)`.
`none` models the raised `struct.error`. -/
def encode_minimal_packet (latitude longitude : ℚ) (timestamp : Int) :
    Option (List Nat) :=
  match packInt32LE (pyTrunc (latitude * 1000000)),
      packInt32LE (pyTrunc (longitude * 1000000)), packInt32LE timestamp with
  | some a, some b, some c => some (a ++ b ++ c)
  | _, _, _ => none

/-- `PacketParser.decode_minimal_packet` (src/shared/packet_parser.py lines
115-144): explicit length check raising `ValueError`, then
`struct.unpack('<iii', ...)` — three signed fields — and division by 1e6. -/
def decode_minimal_packet (packet : List Nat) : Except String (ℚ × ℚ × Int) :=
  if packet.length ≠ 12 then .error "ValueError: invalid packet length"
  else
    .ok ((toInt32 (fromLE4 (packet.take 4)) : ℚ) / 1000000,
      ((toInt32 (fromLE4 ((packet.drop 4).take 4)) : ℚ) / 1000000,
        toInt32 (fromLE4 (packet.drop 8))))

theorem packInt32LE_length {v : Int} {l : List Nat} (h : packInt32LE v = some l) :
    l.length = 4 := by
  rw [packInt32LE] at h
  split at h
  · cases h
    rfl
  · cases h

/-- **C6 (counterexample).** The timestamp field is *not* packed as an
unsigned 32-bit integer: `2^31` is a `uint32` value, yet
`encode_minimal_packet` fails on it (`struct.pack('<i', 2**31)` raises
`struct.error`). -/
theorem encode_minimal_timestamp_not_uint32 :
    (0 ≤ (2 ^ 31 : Int) ∧ (2 ^ 31 : Int) < 2 ^ 32) ∧
    encode_minimal_packet 0 0 (2 ^ 31) = none := by
  refine ⟨by constructor <;> norm_num, ?_⟩
  with_unfolding_all rfl

/-- **C6 (amended).** `encode_minimal_packet` packs `int(lat*1e6)`,
`int(lon*1e6)` and the timestamp as three little-endian *signed* 32-bit
fields into exactly 12 bytes (byte-identical to a `uint32` encoding for
timestamps in `[0, 2^31)`); the round trip at `(51.5074, -0.1278,
1700000000)` reproduces the inputs exactly; and `decode_minimal_packet`
raises `ValueError` on any input whose length is not 12. -/
theorem decode_encode_minimal_packet :
    (∀ (lat lon : ℚ) (ts : Int) (bs : List Nat),
      encode_minimal_packet lat lon ts = some bs → bs.length = 12) ∧
    (∀ ts : Int, 0 ≤ ts → ts < 2 ^ 31 → packInt32LE ts = some (toLE4 ts.toNat)) ∧
    (encode_minimal_packet (515074 / 10000) (-1278 / 10000) 1700000000).map
      decode_minimal_packet =
      some (.ok (515074 / 10000, (-1278 / 10000, 1700000000))) ∧
    (∀ bs : List Nat, bs.length ≠ 12 →
      decode_minimal_packet bs = .error "ValueError: invalid packet length") := by
  refine ⟨?_, ?_, ?_, ?_⟩
  · intro lat lon ts bs h
    rw [encode_minimal_packet] at h
    cases h1 : packInt32LE (pyTrunc (lat * 1000000)) with
    | none => rw [h1] at h; cases h
    | some a =>
      cases h2 : packInt32LE (pyTrunc (lon * 1000000)) with
      | none => rw [h1, h2] at h; cases h
      | some b =>
        cases h3 : packInt32LE ts with
        | none => rw [h1, h2, h3] at h; cases h
        | some c =>
          rw [h1, h2, h3] at h
          cases h
          simp [List.length_append, packInt32LE_length h1, packInt32LE_length h2,
            packInt32LE_length h3]
  · intro ts h0 hlt
    rw [packInt32LE, if_pos ⟨le_trans (by norm_num) h0, hlt⟩]
    rw [Int.emod_eq_of_lt h0 (lt_trans hlt (by norm_num))]
  · with_unfolding_all rfl
  · intro bs h
    rw [decode_minimal_packet, if_pos h]

/-- Concrete witness: an 11-byte packet is rejected, and the timestamp
`1700000000` packs to its little-endian `uint32` bytes. -/
theorem decode_encode_minimal_packet_witness :
    decode_minimal_packet [0, 0, 0, 0, 0, 0, 0, 0, 0, 0, 0] =
      .error "ValueError: invalid packet length" ∧
    packInt32LE 1700000000 = some (toLE4 (Int.toNat 1700000000)) ∧
    encode_minimal_packet 1 1 0 = some
      ([64, 66, 15, 0] ++ [64, 66, 15, 0] ++ [0, 0, 0, 0]) :=
  ⟨decode_encode_minimal_packet.2.2.2 [0, 0, 0, 0, 0, 0, 0, 0, 0, 0, 0] (by decide),
   decode_encode_minimal_packet.2.1 1700000000 (by decide) (by decide),
   by with_unfolding_all rfl⟩

/-! ## Message codec (`LoRaModule._encrypt` / `_decrypt`, src/beacon/lora.py,
and `LoRaReceiver._decrypt`, src/tracker/lora.py)

The AES block cipher itself comes from the external PyCryptodome library; it
is modelled as an explicit parameter `E`/`D : key → block → block`.  All the
framing done by the repository's own code — PKCS7 padding, CBC chaining with
a prepended IV, the tracker's ECB loop, key normalization — is embedded
concretely. -/

/-- The shared configured key `"0123456789ABCDEF"` (src/beacon/config.py line
76 and src/tracker/config.py line 66), as its UTF-8 bytes. -/
def LORA_ENCRYPTION_KEY : List Nat := "0123456789ABCDEF".toList.map Char.toNat

/-- PyCryptodome `pad(data, 16)` (PKCS7): append `16 - len % 16` copies of
that count. -/
def pkcs7pad (data : List Nat) : List Nat :=
  data ++ List.replicate (16 - data.length % 16) (16 - data.length % 16)

/-- PyCryptodome `unpad(data, 16)`: `none` models the raised `ValueError`. -/
def pkcs7unpad (data : List Nat) : Option (List Nat) :=
  if data.length = 0 ∨ data.length % 16 ≠ 0 then none
  else if data.getD (data.length - 1) 0 < 1 ∨
      min 16 data.length < data.getD (data.length - 1) 0 then none
  else if data.drop (data.length - data.getD (data.length - 1) 0) ≠
      List.replicate (data.getD (data.length - 1) 0) (data.getD (data.length - 1) 0)
    then none
  else some (data.take (data.length - data.getD (data.length - 1) 0))

/-- Byte-wise XOR of two equal-length blocks. -/
def xorBytes (a b : List Nat) : List Nat := List.zipWith (fun x y => x ^^^ y) a b

/-- CBC-mode encryption of already-padded data with block function `E`:
each 16-byte block is XORed with the previous ciphertext block (initially the
IV) before enciphering. -/
def cbcEncrypt (E : List Nat → List Nat) : List Nat → List Nat → List Nat
  | _, [] => []
  | prev, b :: bs =>
    E (xorBytes ((b :: bs).take 16) prev) ++
      cbcEncrypt E (E (xorBytes ((b :: bs).take 16) prev)) ((b :: bs).drop 16)
termination_by _ bs => bs.length
decreasing_by simp [List.length_drop]; omega

/-- CBC-mode decryption with block function `D`. -/
def cbcDecrypt (D : List Nat → List Nat) : List Nat → List Nat → List Nat
  | _, [] => []
  | prev, b :: bs =>
    xorBytes (D ((b :: bs).take 16)) prev ++
      cbcDecrypt D ((b :: bs).take 16) ((b :: bs).drop 16)
termination_by _ bs => bs.length
decreasing_by simp [List.length_drop]; omega

/-- ECB-mode decryption with block function `D`, as used by the tracker's
placeholder `_decrypt`. -/
def ecbDecrypt (D : List Nat → List Nat) : List Nat → List Nat
  | [] => []
  | b :: bs => D ((b :: bs).take 16) ++ ecbDecrypt D ((b :: bs).drop 16)
termination_by bs => bs.length
decreasing_by simp [List.length_drop]; omega

/-- Key normalization of the beacon's `_encrypt`/`_decrypt` (src/beacon/lora.py
lines 554-558): keys of length 16/24/32 pass through, anything else is
truncated to 16 and zero-padded (`key[:16].ljust(16, b'\x00')`). -/
def beaconNormalizeKey (key : List Nat) : List Nat :=
  if key.length = 16 ∨ key.length = 24 ∨ key.length = 32 then key
  else key.take 16 ++ List.replicate (16 - (key.take 16).length) 0

/-- Key normalization of the tracker's `_decrypt` (src/tracker/lora.py lines
364-368): zero-pad below 16, truncate above 16. -/
def trackerNormalizeKey (key : List Nat) : List Nat :=
  if key.length < 16 then key ++ List.replicate (16 - key.length) 0
  else if 16 < key.length then key.take 16
  else key

/-- `LoRaModule._encrypt` (src/beacon/lora.py lines 543-576): PKCS7-pad the
serialized message, CBC-encrypt it under the normalized key with a fresh IV,
and prepend the IV.  The random IV is passed explicitly. -/
def lora_encrypt (E : List Nat → List Nat → List Nat) (key iv data : List Nat) :
    List Nat :=
  iv ++ cbcEncrypt (E (beaconNormalizeKey key)) iv (pkcs7pad data)

/-- `LoRaModule._decrypt` (src/beacon/lora.py lines 578-611): split off the
16-byte IV, CBC-decrypt the remainder, strip the PKCS7 padding; any failure
(modelled: a ciphertext that is not a whole number of blocks, or bad padding)
falls into the `except` branch, which returns the input undecoded. -/
def lora_decrypt (D : List Nat → List Nat → List Nat) (key data : List Nat) :
    List Nat :=
  if (data.drop 16).length % 16 ≠ 0 then data
  else
    (pkcs7unpad (cbcDecrypt (D (beaconNormalizeKey key)) (data.take 16)
      (data.drop 16))).getD data

/-- `LoRaReceiver._decrypt` (src/tracker/lora.py lines 337-390): with a key
configured, ECB-decrypt the whole payload (the transmitted IV is *not* split
off), try to unpad, and fall back to the unpadded ECB output; a payload that
is not a whole number of blocks raises inside both attempts and the outer
handler returns the input unchanged. -/
def tracker_decrypt (D : List Nat → List Nat → List Nat) (key data : List Nat) :
    List Nat :=
  if key = [] then data
  else if data.length % 16 ≠ 0 then data
  else
    (pkcs7unpad (ecbDecrypt (D (trackerNormalizeKey key)) data)).getD
      (ecbDecrypt (D (trackerNormalizeKey key)) data)

/-! ### Codec lemmas -/

theorem xorBytes_length (a b : List Nat) :
    (xorBytes a b).length = min a.length b.length := by
  simp [xorBytes]

theorem xorBytes_cancel_right :
    ∀ (a b : List Nat), a.length = b.length → xorBytes (xorBytes a b) b = a := by
  intro a
  induction a with
  | nil => intro b _; cases b <;> rfl
  | cons x xs ih =>
    intro b h
    cases b with
    | nil => simp at h
    | cons y ys =>
      simp only [xorBytes, List.zipWith_cons_cons] at *
      rw [Nat.xor_cancel_right, ih ys (by simpa using h)]

theorem take_left_of_length {α : Type} {l₁ l₂ : List α} {n : Nat} (h : l₁.length = n) :
    (l₁ ++ l₂).take n = l₁ := by
  subst h
  exact List.take_left _ _

theorem drop_left_of_length {α : Type} {l₁ l₂ : List α} {n : Nat} (h : l₁.length = n) :
    (l₁ ++ l₂).drop n = l₂ := by
  subst h
  exact List.drop_left _ _

theorem cbcEncrypt_eq (E : List Nat → List Nat) (prev bs : List Nat) (h : bs ≠ []) :
    cbcEncrypt E prev bs =
      E (xorBytes (bs.take 16) prev) ++
        cbcEncrypt E (E (xorBytes (bs.take 16) prev)) (bs.drop 16) := by
  cases bs with
  | nil => exact absurd rfl h
  | cons b t => rw [cbcEncrypt]

theorem cbcDecrypt_eq (D : List Nat → List Nat) (prev bs : List Nat) (h : bs ≠ []) :
    cbcDecrypt D prev bs =
      xorBytes (D (bs.take 16)) prev ++ cbcDecrypt D (bs.take 16) (bs.drop 16) := by
  cases bs with
  | nil => exact absurd rfl h
  | cons b t => rw [cbcDecrypt]

theorem ecbDecrypt_eq (D : List Nat → List Nat) (bs : List Nat) (h : bs ≠ []) :
    ecbDecrypt D bs = D (bs.take 16) ++ ecbDecrypt D (bs.drop 16) := by
  cases bs with
  | nil => exact absurd rfl h
  | cons b t => rw [ecbDecrypt]

theorem cbcEncrypt_length (E : List Nat → List Nat)
    (hElen : ∀ b : List Nat, b.length = 16 → (E b).length = 16) :
    ∀ (n : Nat) (prev bs : List Nat), bs.length = 16 * n → prev.length = 16 →
      (cbcEncrypt E prev bs).length = 16 * n := by
  intro n
  induction n with
  | zero =>
    intro prev bs hbs _
    have h : bs = [] := List.eq_nil_of_length_eq_zero (by omega)
    subst h
    simp [cbcEncrypt]
  | succ n ih =>
    intro prev bs hbs hprev
    have hne : bs ≠ [] := by
      intro h
      rw [h] at hbs
      simp at hbs
    have htake : (bs.take 16).length = 16 := by rw [List.length_take]; omega
    have hdrop : (bs.drop 16).length = 16 * n := by rw [List.length_drop]; omega
    have hx : (xorBytes (bs.take 16) prev).length = 16 := by
      rw [xorBytes_length, htake, hprev]
      simp
    rw [cbcEncrypt_eq E prev bs hne, List.length_append, hElen _ hx,
      ih (E (xorBytes (bs.take 16) prev)) (bs.drop 16) hdrop (hElen _ hx)]
    ring

theorem ecbDecrypt_length (D : List Nat → List Nat)
    (hDlen : ∀ b : List Nat, b.length = 16 → (D b).length = 16) :
    ∀ (n : Nat) (bs : List Nat), bs.length = 16 * n →
      (ecbDecrypt D bs).length = 16 * n := by
  intro n
  induction n with
  | zero =>
    intro bs hbs
    have h : bs = [] := List.eq_nil_of_length_eq_zero (by omega)
    subst h
    simp [ecbDecrypt]
  | succ n ih =>
    intro bs hbs
    have hne : bs ≠ [] := by
      intro h
      rw [h] at hbs
      simp at hbs
    have htake : (bs.take 16).length = 16 := by rw [List.length_take]; omega
    have hdrop : (bs.drop 16).length = 16 * n := by rw [List.length_drop]; omega
    rw [ecbDecrypt_eq D bs hne, List.length_append, hDlen _ htake, ih (bs.drop 16) hdrop]
    ring

/-- CBC decryption inverts CBC encryption block by block, for any block
function pair that is inverse on 16-byte blocks. -/
theorem cbcDecrypt_cbcEncrypt (E D : List Nat → List Nat)
    (hED : ∀ b : List Nat, b.length = 16 → D (E b) = b)
    (hElen : ∀ b : List Nat, b.length = 16 → (E b).length = 16) :
    ∀ (n : Nat) (prev bs : List Nat), bs.length = 16 * n → prev.length = 16 →
      cbcDecrypt D prev (cbcEncrypt E prev bs) = bs := by
  intro n
  induction n with
  | zero =>
    intro prev bs hbs _
    have h : bs = [] := List.eq_nil_of_length_eq_zero (by omega)
    subst h
    simp [cbcEncrypt, cbcDecrypt]
  | succ n ih =>
    intro prev bs hbs hprev
    have hne : bs ≠ [] := by
      intro h
      rw [h] at hbs
      simp at hbs
    have htake : (bs.take 16).length = 16 := by rw [List.length_take]; omega
    have hdrop : (bs.drop 16).length = 16 * n := by rw [List.length_drop]; omega
    have hx : (xorBytes (bs.take 16) prev).length = 16 := by
      rw [xorBytes_length, htake, hprev]
      simp
    have hclen : (E (xorBytes (bs.take 16) prev)).length = 16 := hElen _ hx
    rw [cbcEncrypt_eq E prev bs hne]
    have hcons : E (xorBytes (bs.take 16) prev) ++
        cbcEncrypt E (E (xorBytes (bs.take 16) prev)) (bs.drop 16) ≠ [] := by
      intro h
      have := congrArg List.length h
      rw [List.length_append, hclen] at this
      simp at this
    rw [cbcDecrypt_eq D prev _ hcons]
    have h1 : (E (xorBytes (bs.take 16) prev) ++
        cbcEncrypt E (E (xorBytes (bs.take 16) prev)) (bs.drop 16)).take 16 =
        E (xorBytes (bs.take 16) prev) := take_left_of_length hclen
    have h2 : (E (xorBytes (bs.take 16) prev) ++
        cbcEncrypt E (E (xorBytes (bs.take 16) prev)) (bs.drop 16)).drop 16 =
        cbcEncrypt E (E (xorBytes (bs.take 16) prev)) (bs.drop 16) :=
      drop_left_of_length hclen
    rw [h1, h2, hED _ hx,
      xorBytes_cancel_right (bs.take 16) prev (by rw [htake, hprev]),
      ih (E (xorBytes (bs.take 16) prev)) (bs.drop 16) hdrop hclen]
    exact List.take_append_drop 16 bs

theorem getD_replicate_self {k i d : Nat} (h : i < k) :
    (List.replicate k k).getD i d = k := by
  rw [List.getD_eq_getElem _ _ (by simpa using h)]
  simp

theorem pkcs7pad_length (m : List Nat) :
    (pkcs7pad m).length = m.length + (16 - m.length % 16) := by
  simp [pkcs7pad]

/-- Stripping the padding recovers the original data. -/
theorem pkcs7unpad_pkcs7pad (m : List Nat) : pkcs7unpad (pkcs7pad m) = some m := by
  have hk1 : 1 ≤ 16 - m.length % 16 := by omega
  have hk16 : 16 - m.length % 16 ≤ 16 := by omega
  have hlen := pkcs7pad_length m
  have hgetD : (pkcs7pad m).getD ((pkcs7pad m).length - 1) 0 = 16 - m.length % 16 := by
    rw [hlen]
    rw [pkcs7pad, List.getD_append_right _ _ _ _ (by omega)]
    rw [show m.length + (16 - m.length % 16) - 1 - m.length = 16 - m.length % 16 - 1
      from by omega]
    exact getD_replicate_self (by omega)
  rw [pkcs7unpad, hgetD]
  rw [if_neg (by rw [hlen]; push_neg; exact ⟨by omega, by omega⟩)]
  rw [if_neg (by rw [hlen]; push_neg; exact ⟨hk1, by omega⟩)]
  have hdrop : (pkcs7pad m).drop ((pkcs7pad m).length - (16 - m.length % 16)) =
      List.replicate (16 - m.length % 16) (16 - m.length % 16) := by
    rw [hlen, show m.length + (16 - m.length % 16) - (16 - m.length % 16) = m.length
      from by omega, pkcs7pad]
    exact drop_left_of_length rfl
  rw [if_neg (by rw [hdrop]; exact fun h => h rfl)]
  rw [hlen, show m.length + (16 - m.length % 16) - (16 - m.length % 16) = m.length
    from by omega, pkcs7pad, take_left_of_length rfl]

theorem beaconNormalizeKey_eq {key : List Nat}
    (h : key.length = 16 ∨ key.length = 24 ∨ key.length = 32) :
    beaconNormalizeKey key = key := by
  rw [beaconNormalizeKey, if_pos h]

/-- **C2.** For every serialized message `m` (as bytes), every key of exactly
16, 24 or 32 bytes, and every 16-byte IV the cipher may generate, the codec
round-trips: `_decrypt (_encrypt m) = m`.  The AES block permutation is a
parameter `E`/`D`, assumed inverse and 16-byte-preserving on 16-byte blocks —
exactly the contract of PyCryptodome's `AES.new(key).encrypt`/`decrypt` per
block. -/
theorem encrypt_decrypt_roundtrip (E D : List Nat → List Nat → List Nat)
    (key iv m : List Nat)
    (hkey : key.length = 16 ∨ key.length = 24 ∨ key.length = 32)
    (hiv : iv.length = 16)
    (hED : ∀ b : List Nat, b.length = 16 → D key (E key b) = b)
    (hElen : ∀ b : List Nat, b.length = 16 → (E key b).length = 16) :
    lora_decrypt D key (lora_encrypt E key iv m) = m := by
  have hnk := beaconNormalizeKey_eq hkey
  have hpadlen : (pkcs7pad m).length = 16 * (m.length / 16 + 1) := by
    rw [pkcs7pad_length]
    omega
  have hct_len : (cbcEncrypt (E key) iv (pkcs7pad m)).length = 16 * (m.length / 16 + 1) :=
    cbcEncrypt_length (E key) hElen _ iv (pkcs7pad m) hpadlen hiv
  rw [lora_encrypt, hnk, lora_decrypt, hnk,
    take_left_of_length hiv, drop_left_of_length hiv]
  rw [if_neg (by rw [hct_len]; omega)]
  rw [cbcDecrypt_cbcEncrypt (E key) (D key) hED hElen _ iv (pkcs7pad m) hpadlen hiv]
  rw [pkcs7unpad_pkcs7pad]
  rfl

/-- Concrete witness: with the identity block permutation standing in for
AES, the default 16-byte key, the zero IV and the message bytes `"Hi"`, the
codec round-trips. -/
theorem encrypt_decrypt_roundtrip_witness :
    lora_decrypt (fun _ b => b) LORA_ENCRYPTION_KEY
      (lora_encrypt (fun _ b => b) LORA_ENCRYPTION_KEY (List.replicate 16 0) [72, 105]) =
      [72, 105] :=
  encrypt_decrypt_roundtrip (fun _ b => b) (fun _ b => b) LORA_ENCRYPTION_KEY
    (List.replicate 16 0) [72, 105] (Or.inl (by decide)) (by decide)
    (fun _ _ => rfl) (fun _ h => h)

theorem pkcs7unpad_length_ge {bs out : List Nat} (h : pkcs7unpad bs = some out) :
    bs.length ≤ out.length + 16 := by
  rw [pkcs7unpad] at h
  split at h
  · simp at h
  · split at h
    · simp at h
    · next hg2 =>
      split at h
      · simp at h
      · injection h with h'
        push_neg at hg2
        obtain ⟨-, hp2⟩ := hg2
        have hlen : out.length = (bs.take
            (bs.length - bs.getD (bs.length - 1) 0)).length := by rw [h']
        rw [List.length_take] at hlen
        omega

/-- **C9.** The beacon's CBC encryption with a prepended IV and the tracker's
placeholder ECB decryption are incompatible: for *every* message (and any
block permutation standing in for keyed AES, any key, any 16-byte IV), the
tracker's `_decrypt` applied to the beacon's `_encrypt` output fails to
recover the plaintext — its output is always strictly longer, because the
tracker never strips the 16-byte IV. -/
theorem tracker_decrypt_not_inverse_of_encrypt
    (E D : List Nat → List Nat → List Nat) (key iv m : List Nat)
    (hiv : iv.length = 16) (hkey : key ≠ [])
    (hElen : ∀ b : List Nat, b.length = 16 →
      (E (beaconNormalizeKey key) b).length = 16)
    (hDlen : ∀ b : List Nat, b.length = 16 →
      (D (trackerNormalizeKey key) b).length = 16) :
    tracker_decrypt D key (lora_encrypt E key iv m) ≠ m := by
  have hpadlen : (pkcs7pad m).length = 16 * (m.length / 16 + 1) := by
    rw [pkcs7pad_length]
    omega
  have hmlt : m.length < 16 * (m.length / 16 + 1) := by omega
  have hct_len : (cbcEncrypt (E (beaconNormalizeKey key)) iv (pkcs7pad m)).length =
      16 * (m.length / 16 + 1) :=
    cbcEncrypt_length _ hElen _ iv _ hpadlen hiv
  have hdata_len : (lora_encrypt E key iv m).length = 16 * (m.length / 16 + 2) := by
    rw [lora_encrypt, List.length_append, hiv, hct_len]
    ring
  intro hEq
  rw [tracker_decrypt, if_neg hkey, if_neg (by rw [hdata_len]; omega)] at hEq
  have hecb : (ecbDecrypt (D (trackerNormalizeKey key))
      (lora_encrypt E key iv m)).length = 16 * (m.length / 16 + 2) :=
    ecbDecrypt_length _ hDlen _ _ hdata_len
  cases hsplit : pkcs7unpad (ecbDecrypt (D (trackerNormalizeKey key))
      (lora_encrypt E key iv m)) with
  | some out =>
    rw [hsplit, Option.getD_some] at hEq
    have hge := pkcs7unpad_length_ge hsplit
    rw [hecb, hEq] at hge
    omega
  | none =>
    rw [hsplit, Option.getD_none] at hEq
    have := congrArg List.length hEq
    rw [hecb] at this
    omega

/-- Concrete witness: with the identity block permutation, the default key,
the zero IV and message bytes `"Hi"`, the tracker-side decryption of the
beacon-side encryption does not return the message. -/
theorem tracker_decrypt_not_inverse_of_encrypt_witness :
    tracker_decrypt (fun _ b => b) LORA_ENCRYPTION_KEY
      (lora_encrypt (fun _ b => b) LORA_ENCRYPTION_KEY (List.replicate 16 0) [72, 105]) ≠
      [72, 105] :=
  tracker_decrypt_not_inverse_of_encrypt (fun _ b => b) (fun _ b => b)
    LORA_ENCRYPTION_KEY (List.replicate 16 0) [72, 105] (by decide) (by decide)
    (fun _ h => h) (fun _ h => h)

/-! ## TX worker retry loop (`LoRaModule._tx_worker`, src/beacon/lora.py
lines 333-404)

The per-message transmit sequence is modelled as a function of the arrival
time (if any) of the matching `ack` — an incoming message of type `"ack"`
whose `ack_id` equals the message's id — relative to the first transmission
at time 0.  Radio transmission itself is modelled as succeeding instantly
(`_transmit_message` returning `True`); each attempt then polls for the ack
for up to `LORA_ACK_TIMEOUT` seconds, and an ack that has arrived by the end
of a window is observed in that window (the code polls both the radio and the
`ack_events` table).  A failed attempt increments the retry counter and
sleeps `0.1 * 2 ** retries`; the loop runs while `retries < LORA_RETRIES`. -/

/-- src/beacon/config.py line 79: seconds to wait for an acknowledgment. -/
def LORA_ACK_TIMEOUT : ℚ := 5

/-- src/beacon/config.py line 80: retry ceiling of the transmit loop. -/
def LORA_RETRIES : Nat := 3

/-- The backoff base `0.1` hard-coded in `_tx_worker`. -/
def TX_BACKOFF_BASE : ℚ := 1 / 10

/-- Whether the matching ack has arrived by the given deadline. -/
def ackSeen (ackAt : Option ℚ) (deadline : ℚ) : Bool :=
  match ackAt with
  | some a => a ≤ deadline
  | none => false

/-- The `while retries < LORA_RETRIES and not success` loop of `_tx_worker`,
with `fuel = LORA_RETRIES - retries` remaining iterations.  Returns
(success, transmissions performed, backoff sleeps performed). -/
def txAttemptLoop (ackAt : Option ℚ) : Nat → Nat → ℚ → Bool × Nat × List ℚ
  | 0, _, _ => (false, 0, [])
  | fuel + 1, retries, now =>
    if ackSeen ackAt (now + LORA_ACK_TIMEOUT) then (true, 1, [])
    else
      match txAttemptLoop ackAt fuel (retries + 1)
          (now + LORA_ACK_TIMEOUT + TX_BACKOFF_BASE * 2 ^ (retries + 1)) with
      | (s, att, bo) => (s, att + 1, TX_BACKOFF_BASE * 2 ^ (retries + 1) :: bo)

/-- The outcome of the whole per-message transmit sequence, including the
statistics update after the loop (`tx_packets += 1` on success,
`tx_errors += 1` — exactly once — on exhaustion). -/
structure TxOutcome where
  success : Bool
  attempts : Nat
  backoffs : List ℚ
  txPacketsInc : Nat
  txErrorsInc : Nat

/-- One `require_ack=true` message processed by `_tx_worker`, starting at
retry count 0 with the first transmission at time 0. -/
def tx_worker_process (ackAt : Option ℚ) : TxOutcome :=
  match txAttemptLoop ackAt LORA_RETRIES 0 0 with
  | (s, att, bo) =>
    { success := s, attempts := att, backoffs := bo,
      txPacketsInc := if s then 1 else 0, txErrorsInc := if s then 0 else 1 }

theorem txAttemptLoop_backoff_list (fuel retries : Nat) :
    (List.range (fuel + 1)).map (fun j => TX_BACKOFF_BASE * 2 ^ (retries + j + 1)) =
      TX_BACKOFF_BASE * 2 ^ (retries + 1) ::
        (List.range fuel).map (fun j => TX_BACKOFF_BASE * 2 ^ (retries + 1 + j + 1)) := by
  rw [List.range_succ_eq_map, List.map_cons, List.map_map]
  congr 1
  apply List.map_congr_left
  intro j _
  simp only [Function.comp_apply]
  congr 2
  omega

/-- A run in which the ack never arrives makes all `LORA_RETRIES - retries`
remaining attempts, fails, and sleeps the exponential backoffs. -/
theorem txAttemptLoop_none :
    ∀ (fuel retries : Nat) (now : ℚ),
      txAttemptLoop none fuel retries now =
        (false, fuel,
          (List.range fuel).map (fun j => TX_BACKOFF_BASE * 2 ^ (retries + j + 1))) := by
  intro fuel
  induction fuel with
  | zero => intro retries now; rfl
  | succ fuel ih =>
    intro retries now
    rw [txAttemptLoop]
    rw [show ackSeen none (now + LORA_ACK_TIMEOUT) = false from rfl]
    rw [if_neg (by simp)]
    rw [ih (retries + 1) (now + LORA_ACK_TIMEOUT + TX_BACKOFF_BASE * 2 ^ (retries + 1))]
    rw [txAttemptLoop_backoff_list]

/-- A run in which the matching ack arrives only after every polling window
has closed behaves exactly like a run without an ack.  The bound
`now + timeout·fuel + 0.1·(2^(retries+fuel+1) - 2^(retries+1))` is the exact
end of the last window. -/
theorem txAttemptLoop_late (a : ℚ) :
    ∀ (fuel retries : Nat) (now : ℚ),
      now + LORA_ACK_TIMEOUT * (fuel : ℚ) +
          TX_BACKOFF_BASE * ((2 : ℚ) ^ (retries + fuel + 1) - 2 ^ (retries + 1)) < a →
      txAttemptLoop (some a) fuel retries now =
        (false, fuel,
          (List.range fuel).map (fun j => TX_BACKOFF_BASE * 2 ^ (retries + j + 1))) := by
  intro fuel
  induction fuel with
  | zero => intro retries now _; rfl
  | succ fuel ih =>
    intro retries now h
    have hpow : (2 : ℚ) ^ (retries + 1) ≤ 2 ^ (retries + (fuel + 1) + 1) :=
      pow_le_pow_right₀ (by norm_num) (by omega)
    have hfc : (0 : ℚ) ≤ (fuel : ℚ) := Nat.cast_nonneg fuel
    rw [LORA_ACK_TIMEOUT, TX_BACKOFF_BASE] at h
    push_cast at h
    have hnotseen : ¬(a ≤ now + LORA_ACK_TIMEOUT) := by
      rw [LORA_ACK_TIMEOUT]
      intro hle
      linarith [hpow, hfc]
    rw [txAttemptLoop]
    rw [show ackSeen (some a) (now + LORA_ACK_TIMEOUT) =
      decide (a ≤ now + LORA_ACK_TIMEOUT) from rfl]
    rw [if_neg (by simp [decide_eq_false hnotseen])]
    rw [ih (retries + 1) (now + LORA_ACK_TIMEOUT + TX_BACKOFF_BASE * 2 ^ (retries + 1))
      (by
        rw [LORA_ACK_TIMEOUT, TX_BACKOFF_BASE]
        have he : (2 : ℚ) ^ (retries + 1 + fuel + 1) = 2 ^ (retries + (fuel + 1) + 1) := by
          congr 1
          omega
        have h2 : (2 : ℚ) ^ (retries + 1 + 1) = 2 ^ (retries + 1) * 2 :=
          pow_succ 2 (retries + 1)
        rw [he, h2]
        linarith [h])]
    rw [txAttemptLoop_backoff_list]

/-- **C1.** A `require_ack=true` message whose matching ack never arrives
within `LORA_ACK_TIMEOUT × (LORA_RETRIES + 1)` seconds of the first
transmission (in particular: never arrives at all) ends as a delivery
failure: the loop performs exactly `LORA_RETRIES` transmissions with
exponential backoffs `0.1 · 2^retry` (the retry counter is incremented
before the sleep), reports failure, increments `tx_errors` exactly once and
`tx_packets` not at all. -/
theorem tx_worker_exhausts_and_counts_one_error (ackAt : Option ℚ)
    (h : ∀ a : ℚ, ackAt = some a →
      LORA_ACK_TIMEOUT * ((LORA_RETRIES : ℚ) + 1) < a) :
    (tx_worker_process ackAt).success = false ∧
    (tx_worker_process ackAt).txErrorsInc = 1 ∧
    (tx_worker_process ackAt).txPacketsInc = 0 ∧
    (tx_worker_process ackAt).attempts = LORA_RETRIES ∧
    (tx_worker_process ackAt).backoffs =
      (List.range LORA_RETRIES).map (fun r => TX_BACKOFF_BASE * 2 ^ (r + 1)) ∧
    (tx_worker_process ackAt).backoffs = [1 / 5, 2 / 5, 4 / 5] := by
  have hrun : txAttemptLoop ackAt LORA_RETRIES 0 0 =
      (false, LORA_RETRIES,
        (List.range LORA_RETRIES).map (fun j => TX_BACKOFF_BASE * 2 ^ (0 + j + 1))) := by
    cases ackAt with
    | none => exact txAttemptLoop_none LORA_RETRIES 0 0
    | some a =>
      apply txAttemptLoop_late
      have h20 := h a rfl
      rw [LORA_ACK_TIMEOUT, LORA_RETRIES] at h20
      rw [LORA_ACK_TIMEOUT, LORA_RETRIES, TX_BACKOFF_BASE]
      push_cast at h20 ⊢
      norm_num
      linarith [h20]
  rw [tx_worker_process, hrun]
  refine ⟨rfl, rfl, rfl, rfl, by simp, by with_unfolding_all rfl⟩

/-- Witness: a message whose ack never arrives (`ackAt = none`) is exhausted
with one `tx_errors` increment and backoffs 0.2 s, 0.4 s, 0.8 s. -/
theorem tx_worker_exhausts_and_counts_one_error_witness :
    (tx_worker_process none).success = false ∧
    (tx_worker_process none).txErrorsInc = 1 ∧
    (tx_worker_process none).txPacketsInc = 0 ∧
    (tx_worker_process none).attempts = LORA_RETRIES ∧
    (tx_worker_process none).backoffs =
      (List.range LORA_RETRIES).map (fun r => TX_BACKOFF_BASE * 2 ^ (r + 1)) ∧
    (tx_worker_process none).backoffs = [1 / 5, 2 / 5, 4 / 5] :=
  tx_worker_exhausts_and_counts_one_error none (fun _ ha => nomatch ha)

/-! ## Tracker callback registry (`LoRaReceiver`, src/tracker/lora.py)

`__init__` sets `self.message_callbacks = {}` (a `dict`, line 52), but
`register_callback` calls `self.message_callbacks.append(callback)` (line
157) — an attribute only `list` has.  The dynamic attribute dispatch is
modelled just finely enough to distinguish the two container types;
callbacks are identified by opaque ids. -/

/-- A Python runtime container, as far as this interface can observe it. -/
inductive PyContainer where
  | pydict (entries : List (String × Nat))
  | pylist (items : List Nat)

inductive PyError where
  | attributeError
deriving DecidableEq

/-- Python attribute dispatch for `.append(x)`: lists append; dicts have no
`append` attribute, so the call raises `AttributeError`. -/
def pyAppend : PyContainer → Nat → Except PyError PyContainer
  | .pylist xs, x => .ok (.pylist (xs ++ [x]))
  | .pydict _, _ => .error .attributeError

/-- `for x in c`: iterating a dict yields its keys, a list its items. -/
def pyIterLen : PyContainer → Nat
  | .pydict entries => entries.length
  | .pylist items => items.length

/-- The `message_callbacks` attribute of a `LoRaReceiver`. -/
structure LoRaReceiverState where
  message_callbacks : PyContainer

/-- `LoRaReceiver.__init__` (src/tracker/lora.py line 52):
`self.message_callbacks = {}`. -/
def loRaReceiver_init : LoRaReceiverState := { message_callbacks := .pydict [] }

/-- `LoRaReceiver.register_callback` (src/tracker/lora.py lines 150-157):
`self.message_callbacks.append(callback)`. -/
def register_callback (st : LoRaReceiverState) (cb : Nat) :
    Except PyError LoRaReceiverState :=
  match pyAppend st.message_callbacks cb with
  | .ok c => .ok { st with message_callbacks := c }
  | .error e => .error e

/-- **C10.** On any receiver state whose `message_callbacks` is still the
dict it was initialized to — which is every reachable state, since nothing
else ever assigns the attribute — `register_callback` raises
`AttributeError` for every callback, so no callback is ever registered; and
the callback loop of `_rx_worker` on the initial state iterates an empty
collection. -/
theorem register_callback_always_raises :
    (∀ (entries : List (String × Nat)) (cb : Nat),
      register_callback { message_callbacks := .pydict entries } cb =
        .error .attributeError) ∧
    (∀ cb : Nat, register_callback loRaReceiver_init cb = .error .attributeError) ∧
    pyIterLen loRaReceiver_init.message_callbacks = 0 :=
  ⟨fun _ _ => rfl, fun _ => rfl, rfl⟩
